import Mathlib

/-!
Shallow embedding of the multi-target backup orchestration engine of the
`fuego-data` repository (files `backup_organization.py`, `github_backup.py`,
`backup_targets.py`).  Python dictionaries holding task outcomes become Lean
structures, the thread-pool fan-out becomes a `List.map` over the task list
(completion order is modelled as submission order; order-independence of the
summary is proved separately), and Python exceptions become `Except` values.
External collaborators (the GitHub API, the GitLab server, the filesystem,
subprocesses, the process environment) are passed in as explicit data.
-/

namespace FuegoData

/-- One repository descriptor as extracted by
`GitHubBackup._extract_repository_data`.  Only the fields the orchestrator,
filters and adapters actually read are retained. -/
structure RepoData where
  name : String
  repo_private : Bool := false
  archived : Bool := false
  fork : Bool := false
  description : String := ""
  clone_url : String := ""
  ssh_url : String := ""
  deriving DecidableEq

/-- One task outcome dictionary as built by
`OrganizationBackup.backup_repository` and the dry-run branch of
`run_backup` (keys `repository`, `target`, `status`, `result`, `error`). -/
structure TaskOutcome where
  repository : String
  target : String
  status : String
  result : Option String := none
  error : Option String := none
  deriving DecidableEq

/-- A backup target as seen by the orchestrator: its `enabled` config flag
and its `backup_repository` method, which either returns a result payload or
raises an exception (modelled as `Except String`, carrying `str(e)`). -/
structure Target where
  enabled : Bool
  backup : RepoData → Except String String

/-- `BackupTarget.is_enabled`: pure read of the `enabled` config flag. -/
def Target.is_enabled (t : Target) : Bool := t.enabled

/-- `OrganizationBackup.backup_repository`: runs the adapter call inside
`try/except Exception`, converting any raised exception into an outcome with
status `error` carrying the exception message. -/
def backup_repository (repo : RepoData) (target_name : String) (t : Target) :
    TaskOutcome :=
  match t.backup repo with
  | Except.ok result =>
      { repository := repo.name, target := target_name, status := "success",
        result := some result }
  | Except.error e =>
      { repository := repo.name, target := target_name, status := "error",
        error := some e }

/-- Per-target statistics in the `target_summary` of a run summary. -/
structure TargetStats where
  success : Nat
  failed : Nat
  dry_run : Nat
  deriving DecidableEq

/-- One `+= 1` step of the `generate_summary` grouping loop, selected by the
result's status string. -/
def bumpStats (s : TargetStats) (status : String) : TargetStats :=
  if status == "success" then { s with success := s.success + 1 }
  else if status == "error" then { s with failed := s.failed + 1 }
  else if status == "dry_run" then { s with dry_run := s.dry_run + 1 }
  else s

/-- One iteration of the `generate_summary` grouping loop: insert the target
key with zeroed stats when absent, then bump the counter selected by the
status.  The association list keeps dict insertion order. -/
def updateAssoc (ts : List (String × TargetStats)) (key status : String) :
    List (String × TargetStats) :=
  match ts with
  | [] => [(key, bumpStats ⟨0, 0, 0⟩ status)]
  | (k, s) :: rest =>
      if k == key then (k, bumpStats s status) :: rest
      else (k, s) :: updateAssoc rest key status

/-- The `target_summary` dict built by the grouping loop of
`generate_summary`, folded over the results in collection order. -/
def buildTargetSummary (results : List TaskOutcome) :
    List (String × TargetStats) :=
  results.foldl (fun ts r => updateAssoc ts r.target r.status) []

/-- The run summary dict built by `OrganizationBackup.generate_summary`
(timestamp and duration fields are wall-clock data and are not modelled). -/
structure Summary where
  total_backups : Nat
  successful : Nat
  failed : Nat
  dry_run : Nat
  target_summary : List (String × TargetStats)
  results : List TaskOutcome
  deriving DecidableEq

/-- `OrganizationBackup.generate_summary`. -/
def generate_summary (results : List TaskOutcome) : Summary :=
  { total_backups := results.length
    successful := (results.filter (fun r => r.status == "success")).length
    failed := (results.filter (fun r => r.status == "error")).length
    dry_run := (results.filter (fun r => r.status == "dry_run")).length
    target_summary := buildTargetSummary results
    results := results }

/-- Return value of `run_backup`: either one of the two early-exit status
dicts, or the completed run summary. -/
inductive RunResult where
  | early (status : String)
  | completed (summary : Summary)
  deriving DecidableEq

/-- Observable behaviour of one `run_backup` call: its return value, the
list of `(repository, target)` pairs on which some adapter's
`backup_repository` was actually invoked, and whether
`notification_manager.send_backup_summary` was called. -/
structure RunOutput where
  result : RunResult
  adapter_calls : List (String × String)
  notified : Bool

/-- The task list built by the nested loops of `run_backup`:
for each repository, one task per enabled target, in dict order. -/
def build_backup_tasks :
    List RepoData → List (String × Target) → List (RepoData × String × Target)
  | [], _ => []
  | repo :: rest, targets =>
      targets.filterMap
        (fun nt => if nt.2.is_enabled then some (repo, nt.1, nt.2) else none)
        ++ build_backup_tasks rest targets

/-- `OrganizationBackup.run_backup`.  The fetched repository list and the
target dict are inputs (discovery is an external collaborator).  The live
branch's thread pool is modelled by mapping `backup_repository` over the
task list; `backup_repository` never raises, so the `future.result()`
re-raise handler in the collection loop is unreachable and not modelled. -/
def run_backup (repositories : List RepoData)
    (backup_targets : List (String × Target)) (dry_run : Bool) : RunOutput :=
  if repositories.isEmpty then
    { result := RunResult.early "no_repositories", adapter_calls := [],
      notified := false }
  else
    let backup_tasks := build_backup_tasks repositories backup_targets
    if backup_tasks.isEmpty then
      { result := RunResult.early "no_targets", adapter_calls := [],
        notified := false }
    else
      let results :=
        if dry_run then
          backup_tasks.map (fun t =>
            { repository := t.1.name, target := t.2.1, status := "dry_run",
              result := some "Simulated backup" })
        else
          backup_tasks.map (fun t => backup_repository t.1 t.2.1 t.2.2)
      { result := RunResult.completed (generate_summary results)
        adapter_calls :=
          if dry_run then [] else backup_tasks.map (fun t => (t.1.name, t.2.1))
        notified := !dry_run }

/-- The summary of a completed run, `none` on an early exit. -/
def summaryOf (o : RunOutput) : Option Summary :=
  match o.result with
  | RunResult.completed s => some s
  | RunResult.early _ => none

/-! ### String helpers (Python `str.startswith` / `str.endswith`) -/

/-- `str.startswith`, on character lists. -/
def leadsWith : List Char → List Char → Bool
  | [], _ => true
  | _ :: _, [] => false
  | p :: ps, c :: cs => p == c && leadsWith ps cs

/-- `str.endswith`, on character lists. -/
def trailsWith (p s : List Char) : Bool := leadsWith p.reverse s.reverse

/-- First-match lookup in an association list (Python dict `.get`). -/
def lookupStr : List (String × String) → String → Option String
  | [], _ => none
  | (k, v) :: rest, key => if k == key then some v else lookupStr rest key

/-! ### Regular-expression matching (`re.match`)

The repository's filter patterns use only literal characters, `.` and the
postfix `*`, so the embedding implements exactly that fragment of Python's
regex language, with `re.match` semantics: the pattern must match some
prefix of the string, anchored at position 0. -/

/-- One regex token: a literal character or the wildcard `.`. -/
inductive Tok where
  | lit (c : Char)
  | dot
  deriving DecidableEq

/-- Whether a token matches one character. -/
def tokMatch : Tok → Char → Bool
  | Tok.lit c, d => c == d
  | Tok.dot, _ => true

/-- Tokenize a pattern into tokens, each flagged when followed by `*`. -/
def lexRegex : List Char → List (Tok × Bool)
  | [] => []
  | c :: '*' :: rest =>
      ((if c == '.' then Tok.dot else Tok.lit c), true) :: lexRegex rest
  | c :: rest =>
      ((if c == '.' then Tok.dot else Tok.lit c), false) :: lexRegex rest

/-- Match a starred token: zero or more occurrences of `t`, then the
continuation `m`. -/
def starMatch (m : List Char → Bool) (t : Tok) : List Char → Bool
  | [] => m []
  | c :: cs => m (c :: cs) || (tokMatch t c && starMatch m t cs)

/-- Match a token sequence against a prefix of the string. -/
def canMatch : List (Tok × Bool) → List Char → Bool
  | [], _ => true
  | (_, false) :: _, [] => false
  | (t, false) :: rest, c :: cs => tokMatch t c && canMatch rest cs
  | (t, true) :: rest, cs => starMatch (canMatch rest) t cs

/-- Python `re.match(pattern, s)` as a Boolean, for the fragment above. -/
def reMatch (pattern s : String) : Bool :=
  canMatch (lexRegex pattern.data) s.data

/-! ### Repository filtering (`github_backup.py`) -/

/-- `GitHubBackup._should_include_repository`: visibility, archived and fork
gates, then exclude patterns (always win), then include patterns as an
allow-list when non-empty. -/
def _should_include_repository (repo_data : RepoData)
    (include_private include_archived include_forks : Bool)
    (exclude_patterns include_patterns : List String) : Bool :=
  if repo_data.repo_private && !include_private then false
  else if repo_data.archived && !include_archived then false
  else if repo_data.fork && !include_forks then false
  else if exclude_patterns.any (fun p => reMatch p repo_data.name) then false
  else if !include_patterns.isEmpty then
    include_patterns.any (fun p => reMatch p repo_data.name)
  else true

/-- `GitHubBackup.get_repositories`: the organization's repository list (an
external API collaborator, passed in) filtered by
`_should_include_repository`, in API order. -/
def get_repositories (org_repos : List RepoData)
    (include_private include_archived include_forks : Bool)
    (exclude_patterns include_patterns : List String) : List RepoData :=
  org_repos.filter (fun r =>
    _should_include_repository r include_private include_archived
      include_forks exclude_patterns include_patterns)

/-! ### Credential resolution (`BackupTarget._get_token`) -/

/-- `BackupTarget._get_token`: read the key from the config dict; when the
value is an environment placeholder of the shape `$\x7bVAR\x7d`, resolve
`VAR` against the process environment with `os.getenv(var, '')`, which
yields the empty string when the variable is unset. -/
def _get_token (config env : List (String × String)) (token_key : String) :
    String :=
  let token := (lookupStr config token_key).getD ""
  if leadsWith ("$\x7b".data) token.data && trailsWith ("\x7d".data) token.data
  then
    let env_var : String := String.mk ((token.data.drop 2).dropLast)
    (lookupStr env env_var).getD ""
  else token

/-! ### Connection tests (`backup_targets.py`)

Python exceptions are modelled by an explicit class hierarchy; every
external call an adapter makes is passed in as an `Except PyExc` value, and
a `test_connection` returning `Except.error` models an uncaught exception
propagating out of the method. -/

/-- The exception classes relevant to the adapters' `except` clauses. -/
inductive PyExc where
  | gitlabError (msg : String)
  | requestException (msg : String)
  | calledProcessError (msg : String)
  | fileNotFoundError (msg : String)
  | permissionError (msg : String)
  | otherError (msg : String)
  deriving DecidableEq

/-- The classes caught by `except (subprocess.CalledProcessError,
FileNotFoundError)` in `RadicleBackupTarget.test_connection`. -/
def radicleCaught : PyExc → Bool
  | PyExc.calledProcessError _ => true
  | PyExc.fileNotFoundError _ => true
  | _ => false

/-- The classes caught by `except requests.RequestException` in
`IPFSBackupTarget.test_connection`. -/
def isRequestException : PyExc → Bool
  | PyExc.requestException _ => true
  | _ => false

/-- `GitLabBackupTarget.test_connection`: false when disabled or the token
is empty, otherwise a `self.gl.user` round-trip whose failures are all
caught by `except Exception`. -/
def gitlab_test_connection (enabled : Bool) (token : String)
    (gl_user : Except PyExc String) : Except PyExc Bool :=
  if !enabled || token == "" then Except.ok false
  else
    match gl_user with
    | Except.ok _ => Except.ok true
    | Except.error _ => Except.ok false

/-- `RadicleBackupTarget.test_connection`: `rad --version` then
`rad node status`; only `CalledProcessError` and `FileNotFoundError` are
caught, any other exception propagates. -/
def radicle_test_connection (enabled : Bool)
    (rad_version rad_node_status : Except PyExc String) : Except PyExc Bool :=
  if !enabled then Except.ok false
  else
    match rad_version with
    | Except.error e =>
        if radicleCaught e then Except.ok false else Except.error e
    | Except.ok _ =>
        match rad_node_status with
        | Except.error e =>
            if radicleCaught e then Except.ok false else Except.error e
        | Except.ok _ => Except.ok true

/-- `IPFSBackupTarget.test_connection`: POST to the version endpoint; only
`requests.RequestException` is caught. -/
def ipfs_test_connection (enabled : Bool)
    (version_response : Except PyExc String) : Except PyExc Bool :=
  if !enabled then Except.ok false
  else
    match version_response with
    | Except.error e =>
        if isRequestException e then Except.ok false else Except.error e
    | Except.ok _ => Except.ok true

/-! ### GitLab destination state (`GitLabBackupTarget._get_or_create_project`)

The GitLab server is modelled as a list of projects with unique numeric
ids; `group.projects.get` raising `GitlabGetError` on a missing project
becomes a failed `find?`. -/

/-- One destination-side GitLab project. -/
structure GLProject where
  id : Nat
  name : String
  group : Option Nat
  deriving DecidableEq

/-- The GitLab server's project store. -/
structure GitLabState where
  projects : List GLProject
  next_id : Nat
  deriving DecidableEq

/-- `group.projects.get(repo_name)`: the first project with that name in
the group, or `none` (a raised `GitlabGetError`). -/
def glFindInGroup (st : GitLabState) (gid : Nat) (name : String) :
    Option GLProject :=
  st.projects.find? (fun p => p.name == name && p.group == some gid)

/-- `projects.create(...)`: unconditionally register a new project with a
fresh id. -/
def glCreateProject (st : GitLabState) (name : String) (group : Option Nat) :
    GLProject × GitLabState :=
  let p : GLProject := { id := st.next_id, name := name, group := group }
  (p, { projects := st.projects ++ [p], next_id := st.next_id + 1 })

/-- `GitLabBackupTarget._get_or_create_project`: the existence probe runs
only when a `group_id` is configured; with `group_id` unset the code falls
straight through to `self.gl.projects.create`. -/
def _get_or_create_project (group_id : Option Nat) (repo : RepoData)
    (st : GitLabState) : GLProject × GitLabState :=
  match group_id with
  | some gid =>
      match glFindInGroup st gid repo.name with
      | some p => (p, st)
      | none => glCreateProject st repo.name (some gid)
  | none => glCreateProject st repo.name none

/-! ### Radicle destination state (`RadicleBackupTarget.backup_repository`) -/

/-- The Radicle network's project store: `(repository id, name)` pairs;
repository ids are unique, names are not. -/
structure RadState where
  projects : List (Nat × String)
  next_rid : Nat
  deriving DecidableEq

/-- `rad init` followed by `rad push` inside
`RadicleBackupTarget._create_radicle_project`: always registers a fresh
project with a new repository id. -/
def _create_radicle_project (repo : RepoData) (st : RadState) : RadState :=
  { projects := st.projects ++ [(st.next_rid, repo.name)]
    next_rid := st.next_rid + 1 }

/-- `RadicleBackupTarget._get_project_id`: scan `rad ls` output for a line
naming the repository and return its first column (the line scan's
substring test is modelled as name equality). -/
def _get_project_id (repo_name : String) (st : RadState) : Option Nat :=
  (st.projects.find? (fun p => p.2 == repo_name)).map (fun p => p.1)

/-- `RadicleBackupTarget.backup_repository` (clone omitted): with
`create_project` set (the default) it always runs
`_create_radicle_project`; otherwise it probes with `_get_project_id` and
pushes to the existing project (creating nothing) or logs a warning. -/
def radicle_backup_repository (create_project : Bool) (repo : RepoData)
    (st : RadState) : TaskOutcome × RadState :=
  let outcome : TaskOutcome :=
    { repository := repo.name, target := "radicle", status := "success",
      result := some "radicle_push" }
  if create_project then (outcome, _create_radicle_project repo st)
  else
    match _get_project_id repo.name st with
    | some _ => (outcome, st)
    | none => (outcome, st)

/-! ### Local filesystem adapter (`LocalBackupTarget`)

The backup directory is a list of named entries with creation times; the
clock is passed in as `now`.  Deletion failures (the environment) are a
predicate on entry names; `os.remove` / `shutil.rmtree` are both modelled
as removal by name. -/

/-- One entry of the local backup directory. -/
structure FSEntry where
  name : String
  ctime : Nat
  deriving DecidableEq

/-- Descending creation-time order, the `sort(key=getctime, reverse=True)`
comparison. -/
def ctimeGE (a b : FSEntry) : Prop := b.ctime ≤ a.ctime

instance : DecidableRel ctimeGE := fun a b => Nat.decLe b.ctime a.ctime

instance : IsTotal FSEntry ctimeGE :=
  ⟨fun a b => Or.symm (Nat.le_total a.ctime b.ctime)⟩

instance : IsTrans FSEntry ctimeGE :=
  ⟨fun _ _ _ h1 h2 => Nat.le_trans h2 h1⟩

/-- `datetime.now().strftime(...)`: an injective rendering of the clock. -/
def timestampStr (now : Nat) : String := toString now

/-- The listing filter of `_cleanup_old_versions`:
`item.startswith(repo_name + "_") and (compress and
item.endswith(".tar.gz") or not compress)`. -/
def snapshotMatches (compress : Bool) (repo_name : String) (e : FSEntry) :
    Bool :=
  leadsWith (repo_name ++ "_").data e.name.data &&
    (compress && trailsWith (".tar.gz").data e.name.data || !compress)

/-- The deletion loop of `_cleanup_old_versions`: one `try` block wraps the
whole loop, so the first failing removal raises out of the loop (the
exception is then caught and logged), leaving the remaining victims in
place. -/
def deleteLoop (removeFails : String → Bool) :
    List String → List FSEntry → List FSEntry
  | [], entries => entries
  | v :: rest, entries =>
      if removeFails v then entries
      else deleteLoop removeFails rest
        (entries.filter (fun e => !(e.name == v)))

/-- `LocalBackupTarget._cleanup_old_versions`: list the repository's
snapshots, sort them newest-first by creation time (CPython's stable sort,
modelled by a stable insertion sort), and delete everything past the first
`keep_versions` of them. -/
def _cleanup_old_versions (compress : Bool) (keep_versions : Nat)
    (removeFails : String → Bool) (repo_name : String)
    (entries : List FSEntry) : List FSEntry :=
  let backups := entries.filter (snapshotMatches compress repo_name)
  let sorted := List.insertionSort ctimeGE backups
  deleteLoop removeFails ((sorted.drop keep_versions).map (fun e => e.name))
    entries

/-- The result dict of `LocalBackupTarget.backup_repository`. -/
structure LocalResult where
  status : String
  backup_path : String
  method : String
  deriving DecidableEq

/-- `LocalBackupTarget.backup_repository`: clone into a timestamped
snapshot directory, compress it into a single archive when configured
(removing the directory), then run the retention cleanup.  The clone is
taken to succeed (a failed clone raises to the orchestrator's task
boundary, which is modelled separately). -/
def local_backup_repository (compress : Bool) (keep_versions : Nat)
    (removeFails : String → Bool) (repo : RepoData) (now : Nat)
    (entries : List FSEntry) : LocalResult × List FSEntry :=
  let backup_dir := repo.name ++ "_" ++ timestampStr now
  let entries1 := entries ++ [⟨backup_dir, now⟩]
  let compressed := backup_dir ++ ".tar.gz"
  let entries2 :=
    if compress then
      (entries1 ++ [⟨compressed, now⟩]).filter (fun e => !(e.name == backup_dir))
    else entries1
  let entries3 :=
    _cleanup_old_versions compress keep_versions removeFails repo.name entries2
  ({ status := "success"
     backup_path := if compress then compressed else backup_dir
     method := "local_clone" }, entries3)

/-! ### Observation functions used to state the summary invariants -/

/-- Stats recorded for a target key in a `target_summary` association list,
zeros when the key is absent. -/
def statsOf (ts : List (String × TargetStats)) (k : String) : TargetStats :=
  match ts.find? (fun e => e.1 == k) with
  | some e => e.2
  | none => ⟨0, 0, 0⟩

/-- Whether a `target_summary` association list carries a key. -/
def hasKey (ts : List (String × TargetStats)) (k : String) : Bool :=
  ts.any (fun e => e.1 == k)

/-- Sum of one per-target counter over a whole `target_summary`. -/
def sumBy (f : TargetStats → Nat) (ts : List (String × TargetStats)) : Nat :=
  (ts.map (fun e => f e.2)).sum

/-- Componentwise sum of stats. -/
def addStats (a b : TargetStats) : TargetStats :=
  ⟨a.success + b.success, a.failed + b.failed, a.dry_run + b.dry_run⟩

/-- The stats a list of results contributes to one target key. -/
def countsFor (results : List TaskOutcome) (k : String) : TargetStats :=
  ⟨results.countP (fun r => r.target == k && r.status == "success"),
   results.countP (fun r => r.target == k && r.status == "error"),
   results.countP (fun r => r.target == k && r.status == "dry_run")⟩

/-! ### Concrete example data for the testable properties -/

def repoR1 : RepoData := ⟨"r1", false, false, false, "", "", ""⟩

def repoR2 : RepoData := ⟨"r2", false, false, false, "", "", ""⟩

/-- An adapter that always succeeds. -/
def targetA : Target := ⟨true, fun _ => Except.ok "okA"⟩

/-- An adapter that always raises. -/
def targetB : Target := ⟨true, fun _ => Except.error "boom"⟩

/-- A configured-but-disabled adapter. -/
def targetOff : Target := ⟨false, fun _ => Except.ok "off"⟩

def repoALib : RepoData := ⟨"a-lib", false, false, false, "", "", ""⟩

def repoATest : RepoData := ⟨"a-test", false, false, false, "", "", ""⟩

def repoBLib : RepoData := ⟨"b-lib", false, false, false, "", "", ""⟩

def exampleRepoSet : List RepoData := [repoALib, repoATest, repoBLib]

def repoR : RepoData := ⟨"r", false, false, false, "", "", ""⟩

/-- Five pre-existing timestamped snapshots of `repoR`, listed by the
filesystem in scrambled order. -/
def oldSnapshots : List FSEntry :=
  [⟨"r_2.tar.gz", 2⟩, ⟨"r_5.tar.gz", 5⟩, ⟨"r_1.tar.gz", 1⟩,
   ⟨"r_4.tar.gz", 4⟩, ⟨"r_3.tar.gz", 3⟩]

/-- An example results list for the summary invariants. -/
def exResults : List TaskOutcome :=
  [⟨"r1", "A", "success", none, none⟩, ⟨"r2", "A", "error", none, none⟩]

/-- The same results collected in the opposite order. -/
def exResultsRev : List TaskOutcome :=
  [⟨"r2", "A", "error", none, none⟩, ⟨"r1", "A", "success", none, none⟩]

/-! ### Helper lemmas about the orchestrator -/

theorem enabled_tasks_length (repo : RepoData)
    (targets : List (String × Target)) :
    (targets.filterMap (fun nt =>
        if nt.2.is_enabled then some (repo, nt.1, nt.2) else none)).length
      = (targets.filter (fun nt => nt.2.is_enabled)).length := by
  induction targets with
  | nil => rfl
  | cons t ts ih =>
      cases h : t.2.is_enabled <;>
        simp [List.filterMap_cons, List.filter_cons, h, ih]

theorem build_backup_tasks_length (repositories : List RepoData)
    (targets : List (String × Target)) :
    (build_backup_tasks repositories targets).length
      = repositories.length
          * (targets.filter (fun nt => nt.2.is_enabled)).length := by
  induction repositories with
  | nil => simp [build_backup_tasks]
  | cons r rs ih =>
      simp [build_backup_tasks, enabled_tasks_length, ih, Nat.succ_mul]
      omega

theorem status_partition (results : List TaskOutcome)
    (h : ∀ r ∈ results,
      r.status = "success" ∨ r.status = "error" ∨ r.status = "dry_run") :
    (results.filter (fun r => r.status == "success")).length
      + (results.filter (fun r => r.status == "error")).length
      + (results.filter (fun r => r.status == "dry_run")).length
      = results.length := by
  induction results with
  | nil => rfl
  | cons r rs ih =>
      have hr := h r (List.mem_cons_self r rs)
      have key := ih (fun x hx => h x (List.mem_cons_of_mem r hx))
      rcases hr with h1 | h1 | h1 <;>
        simp [List.filter_cons, h1] <;> omega

theorem backup_repository_status (repo : RepoData) (tn : String)
    (t : Target) :
    (backup_repository repo tn t).status = "success"
      ∨ (backup_repository repo tn t).status = "error" := by
  unfold backup_repository
  cases t.backup repo <;> simp

theorem backup_repository_of_error (repo : RepoData) (tn : String)
    (t : Target) (msg : String) (h : t.backup repo = Except.error msg) :
    backup_repository repo tn t =
      { repository := repo.name, target := tn, status := "error",
        result := none, error := some msg } := by
  unfold backup_repository
  rw [h]

theorem run_backup_live (repositories : List RepoData)
    (backup_targets : List (String × Target))
    (hrep : repositories ≠ [])
    (htask : build_backup_tasks repositories backup_targets ≠ []) :
    run_backup repositories backup_targets false =
      { result := RunResult.completed (generate_summary
          ((build_backup_tasks repositories backup_targets).map
            (fun t => backup_repository t.1 t.2.1 t.2.2)))
        adapter_calls := (build_backup_tasks repositories backup_targets).map
          (fun t => (t.1.name, t.2.1))
        notified := true } := by
  have h1 : repositories.isEmpty = false := by
    cases repositories
    · exact absurd rfl hrep
    · rfl
  have h2 : (build_backup_tasks repositories backup_targets).isEmpty
      = false := by
    cases h : build_backup_tasks repositories backup_targets
    · exact absurd h htask
    · rfl
  unfold run_backup
  simp [h1, h2]

theorem run_backup_dry (repositories : List RepoData)
    (backup_targets : List (String × Target))
    (hrep : repositories ≠ [])
    (htask : build_backup_tasks repositories backup_targets ≠ []) :
    run_backup repositories backup_targets true =
      { result := RunResult.completed (generate_summary
          ((build_backup_tasks repositories backup_targets).map
            (fun t => { repository := t.1.name, target := t.2.1,
                        status := "dry_run",
                        result := some "Simulated backup" })))
        adapter_calls := []
        notified := false } := by
  have h1 : repositories.isEmpty = false := by
    cases repositories
    · exact absurd rfl hrep
    · rfl
  have h2 : (build_backup_tasks repositories backup_targets).isEmpty
      = false := by
    cases h : build_backup_tasks repositories backup_targets
    · exact absurd h htask
    · rfl
  unfold run_backup
  simp [h1, h2]

theorem build_backup_tasks_ne_nil (repositories : List RepoData)
    (backup_targets : List (String × Target))
    (hM : 0 < repositories.length)
    (hN : 0 < (backup_targets.filter (fun nt => nt.2.is_enabled)).length) :
    build_backup_tasks repositories backup_targets ≠ [] := by
  intro h
  have hlen := build_backup_tasks_length repositories backup_targets
  rw [h] at hlen
  have hpos := Nat.mul_pos hM hN
  simp only [List.length_nil] at hlen
  omega

/-- C1: with M fetched repositories and N enabled adapters (M, N > 0),
`run_backup` completes with a summary holding exactly N×M task outcomes —
one per (repository, adapter) pair — and `generate_summary`'s counts
satisfy successful + failed + dry_run = total_backups. -/
theorem run_backup_cross_product (repositories : List RepoData)
    (backup_targets : List (String × Target)) (dry_run : Bool)
    (hM : 0 < repositories.length)
    (hN : 0 < (backup_targets.filter (fun nt => nt.2.is_enabled)).length) :
    ∃ s, (run_backup repositories backup_targets dry_run).result
        = RunResult.completed s ∧
      s.results.length =
        (backup_targets.filter (fun nt => nt.2.is_enabled)).length
          * repositories.length ∧
      s.successful + s.failed + s.dry_run = s.total_backups := by
  have hrep : repositories ≠ [] := List.length_pos.mp hM
  have htask := build_backup_tasks_ne_nil repositories backup_targets hM hN
  have hlen := build_backup_tasks_length repositories backup_targets
  cases dry_run with
  | false =>
      rw [run_backup_live repositories backup_targets hrep htask]
      refine ⟨_, rfl, ?_, ?_⟩
      · simp [generate_summary, hlen, Nat.mul_comm]
      · simp only [generate_summary]
        exact status_partition _ (by
          intro r hr
          rcases List.mem_map.mp hr with ⟨t, _, ht⟩
          rw [← ht]
          rcases backup_repository_status t.1 t.2.1 t.2.2 with h | h
          · exact Or.inl h
          · exact Or.inr (Or.inl h))
  | true =>
      rw [run_backup_dry repositories backup_targets hrep htask]
      refine ⟨_, rfl, ?_, ?_⟩
      · simp [generate_summary, hlen, Nat.mul_comm]
      · simp only [generate_summary]
        exact status_partition _ (by
          intro r hr
          rcases List.mem_map.mp hr with ⟨t, _, ht⟩
          rw [← ht]
          exact Or.inr (Or.inr rfl))

/-- C1 witness: one repository and one enabled adapter. -/
theorem run_backup_cross_product_witness :
    ∃ s, (run_backup [repoR1] [("A", targetA)] false).result
        = RunResult.completed s ∧
      s.results.length =
        ([("A", targetA)].filter (fun nt => nt.2.is_enabled)).length
          * [repoR1].length ∧
      s.successful + s.failed + s.dry_run = s.total_backups :=
  run_backup_cross_product [repoR1] [("A", targetA)] false (by decide)
    (by decide)

/-- C2: in a live run every task yields exactly one outcome computed from
that task alone, and a task whose adapter call raises yields an outcome
with status `error` carrying the exception message, without aborting the
orchestrator or any sibling task. -/
theorem task_error_isolation (repositories : List RepoData)
    (backup_targets : List (String × Target))
    (hM : 0 < repositories.length)
    (hN : 0 < (backup_targets.filter (fun nt => nt.2.is_enabled)).length) :
    ∃ s, (run_backup repositories backup_targets false).result
        = RunResult.completed s ∧
      s.results = (build_backup_tasks repositories backup_targets).map
        (fun t => backup_repository t.1 t.2.1 t.2.2) ∧
      ∀ repo tn t,
        (repo, tn, t) ∈ build_backup_tasks repositories backup_targets →
        ∀ msg, t.backup repo = Except.error msg →
          backup_repository repo tn t =
            { repository := repo.name, target := tn, status := "error",
              result := none, error := some msg } := by
  have hrep : repositories ≠ [] := List.length_pos.mp hM
  have htask := build_backup_tasks_ne_nil repositories backup_targets hM hN
  rw [run_backup_live repositories backup_targets hrep htask]
  exact ⟨_, rfl, rfl,
    fun repo tn t _ msg hmsg => backup_repository_of_error repo tn t msg hmsg⟩

/-- C2 witness: adapters A (always succeeds) and B (always raises) over
repositories r1 and r2 — the run completes with 2 successes and
2 failures. -/
theorem task_error_isolation_witness :
    (∃ s, (run_backup [repoR1, repoR2] [("A", targetA), ("B", targetB)]
          false).result = RunResult.completed s ∧
      s.results = (build_backup_tasks [repoR1, repoR2]
          [("A", targetA), ("B", targetB)]).map
        (fun t => backup_repository t.1 t.2.1 t.2.2) ∧
      ∀ repo tn t,
        (repo, tn, t) ∈ build_backup_tasks [repoR1, repoR2]
          [("A", targetA), ("B", targetB)] →
        ∀ msg, t.backup repo = Except.error msg →
          backup_repository repo tn t =
            { repository := repo.name, target := tn, status := "error",
              result := none, error := some msg }) ∧
    (summaryOf (run_backup [repoR1, repoR2] [("A", targetA), ("B", targetB)]
        false)).map (fun s => (s.successful, s.failed)) = some (2, 2) :=
  ⟨task_error_isolation [repoR1, repoR2] [("A", targetA), ("B", targetB)]
      (by decide) (by decide),
   by decide⟩

/-- C3: dry-run mode enumerates the same (repository, adapter) task set as
a live run, invokes no adapter's `backup_repository`, yields a `dry_run`
outcome for every task, and never dispatches the summary notification. -/
theorem dry_run_no_side_effects (repositories : List RepoData)
    (backup_targets : List (String × Target))
    (hM : 0 < repositories.length)
    (hN : 0 < (backup_targets.filter (fun nt => nt.2.is_enabled)).length) :
    (run_backup repositories backup_targets true).adapter_calls = [] ∧
    (run_backup repositories backup_targets true).notified = false ∧
    ∃ s, (run_backup repositories backup_targets true).result
        = RunResult.completed s ∧
      s.results.map (fun r => (r.repository, r.target)) =
        (build_backup_tasks repositories backup_targets).map
          (fun t => (t.1.name, t.2.1)) ∧
      ∀ r ∈ s.results, r.status = "dry_run" := by
  have hrep : repositories ≠ [] := List.length_pos.mp hM
  have htask := build_backup_tasks_ne_nil repositories backup_targets hM hN
  rw [run_backup_dry repositories backup_targets hrep htask]
  refine ⟨rfl, rfl, _, rfl, ?_, ?_⟩
  · simp [generate_summary]
  · intro r hr
    simp only [generate_summary] at hr
    rcases List.mem_map.mp hr with ⟨t, _, ht⟩
    rw [← ht]

/-- C3 witness: two repositories, one enabled and one raising adapter. -/
theorem dry_run_no_side_effects_witness :
    (run_backup [repoR1, repoR2] [("A", targetA), ("B", targetB)]
        true).adapter_calls = [] ∧
    (run_backup [repoR1, repoR2] [("A", targetA), ("B", targetB)]
        true).notified = false ∧
    ∃ s, (run_backup [repoR1, repoR2] [("A", targetA), ("B", targetB)]
        true).result = RunResult.completed s ∧
      s.results.map (fun r => (r.repository, r.target)) =
        (build_backup_tasks [repoR1, repoR2]
          [("A", targetA), ("B", targetB)]).map
          (fun t => (t.1.name, t.2.1)) ∧
      ∀ r ∈ s.results, r.status = "dry_run" :=
  dry_run_no_side_effects [repoR1, repoR2] [("A", targetA), ("B", targetB)]
    (by decide) (by decide)

/-- C6: an empty repository list makes `run_backup` return status
`no_repositories` immediately, with no task executed and the notification
manager never invoked; a non-empty repository list with an empty
enabled-adapter task set returns status `no_targets`. -/
theorem empty_input_boundary (repos1 : List RepoData)
    (targets1 : List (String × Target)) (d1 : Bool)
    (repos2 : List RepoData) (targets2 : List (String × Target)) (d2 : Bool)
    (h1 : repos1 = []) (h2 : repos2 ≠ [])
    (h3 : build_backup_tasks repos2 targets2 = []) :
    run_backup repos1 targets1 d1 =
      { result := RunResult.early "no_repositories", adapter_calls := [],
        notified := false } ∧
    run_backup repos2 targets2 d2 =
      { result := RunResult.early "no_targets", adapter_calls := [],
        notified := false } := by
  subst h1
  constructor
  · rfl
  · have hr : repos2.isEmpty = false := by
      cases repos2
      · exact absurd rfl h2
      · rfl
    unfold run_backup
    simp [hr, h3]

/-- C6 witness: empty repository list, and a repository with only a
disabled adapter. -/
theorem empty_input_boundary_witness :
    run_backup [] [("A", targetA)] false =
      { result := RunResult.early "no_repositories", adapter_calls := [],
        notified := false } ∧
    run_backup [repoR1] [("off", targetOff)] false =
      { result := RunResult.early "no_targets", adapter_calls := [],
        notified := false } :=
  empty_input_boundary [] [("A", targetA)] false [repoR1]
    [("off", targetOff)] false rfl (by simp [repoR1]) rfl

/-- C4: exclude patterns are checked before include patterns and always
win; a non-empty include list is an allow-list under which a repository
matching no include pattern is excluded; on repositories named a-lib,
a-test, b-lib, excluding `a-.*` yields only b-lib, and including `b-.*`
on the unfiltered set also yields only b-lib. -/
theorem repository_filter_correct (r : RepoData) (ip ia ifk : Bool)
    (excl incl : List String)
    (hex : excl.any (fun p => reMatch p r.name) = true) :
    _should_include_repository r ip ia ifk excl incl = false ∧
    (∀ (r2 : RepoData) (excl2 incl2 : List String), incl2 ≠ [] →
      incl2.any (fun p => reMatch p r2.name) = false →
      _should_include_repository r2 ip ia ifk excl2 incl2 = false) ∧
    (get_repositories exampleRepoSet true false false ["a-.*"] []).map
      (fun x => x.name) = ["b-lib"] ∧
    (get_repositories exampleRepoSet true false false [] ["b-.*"]).map
      (fun x => x.name) = ["b-lib"] := by
  refine ⟨?_, ?_, by decide, by decide⟩
  · simp [_should_include_repository, hex]
  · intro r2 excl2 incl2 hne hnm
    have hemp : incl2.isEmpty = false := by
      cases incl2
      · exact absurd rfl hne
      · rfl
    simp [_should_include_repository, hemp, hnm]

/-- C4 witness: repository a-lib is excluded by pattern `a-.*`. -/
theorem repository_filter_correct_witness :
    _should_include_repository repoALib true true true ["a-.*"] [] = false ∧
    (get_repositories exampleRepoSet true false false ["a-.*"] []).map
      (fun x => x.name) = ["b-lib"] :=
  ⟨(repository_filter_correct repoALib true true true ["a-.*"] []
      (by decide)).1,
   (repository_filter_correct repoALib true true true ["a-.*"] []
      (by decide)).2.2.1⟩

/-- C5 counterexample: the Radicle adapter in its default
create-project mode never probes — backing the same repository up twice
from an empty network registers two distinct destination-side projects
with the repository's name, refuting idempotence for every variant. -/
theorem backup_idempotence_counterexample :
    ((radicle_backup_repository true repoR1
        (radicle_backup_repository true repoR1 ⟨[], 0⟩).2).2.projects.filter
      (fun p => p.2 == "r1")).length = 2 := by decide

theorem find?_append_of_none {α : Type} (p : α → Bool) (l1 l2 : List α)
    (h : l1.find? p = none) : (l1 ++ l2).find? p = l2.find? p := by
  rw [List.find?_append, h, Option.none_or]

/-- C5 amended: adapters that probe before creating are idempotent — the
GitLab variant with a configured group returns the first call's project
and leaves the destination unchanged on the second call, and the Radicle
variant in push-to-existing mode creates no destination-side entity; the
Radicle create-project mode (its default) and the snapshot-style variants
create a fresh entity on every call. -/
theorem get_or_create_idempotent (gid : Nat) (repo : RepoData)
    (st : GitLabState) :
    _get_or_create_project (some gid) repo
        (_get_or_create_project (some gid) repo st).2
      = _get_or_create_project (some gid) repo st ∧
    ∀ st2 : RadState, (radicle_backup_repository false repo st2).2 = st2 := by
  constructor
  · cases hf : glFindInGroup st gid repo.name with
    | some p => simp [_get_or_create_project, hf]
    | none =>
        have hfind : glFindInGroup (glCreateProject st repo.name (some gid)).2
            gid repo.name
            = some (glCreateProject st repo.name (some gid)).1 := by
          unfold glFindInGroup glCreateProject
          unfold glFindInGroup at hf
          rw [find?_append_of_none _ _ _ hf]
          simp
        simp [_get_or_create_project, hf, hfind]
  · intro st2
    unfold radicle_backup_repository
    cases _get_project_id repo.name st2 <;> rfl

/-- C7 counterexample: in an environment where launching the `rad` CLI
raises `PermissionError` (a failure outside the two exception classes the
`except` clause enumerates), `RadicleBackupTarget.test_connection`
propagates the exception instead of returning false. -/
theorem test_connection_raises_counterexample :
    radicle_test_connection true
        (Except.error (PyExc.permissionError "rad: permission denied"))
        (Except.ok "") =
      Except.error (PyExc.permissionError "rad: permission denied") := rfl

/-- C7 amended: the GitLab variant's catch-all means its
`test_connection` never raises for any input; the Radicle and IPFS
variants return false rather than raising only when every failing
external call raises one of the exception classes their `except` clauses
enumerate (`CalledProcessError`/`FileNotFoundError` for Radicle,
`RequestException` for IPFS) — failures outside those classes
propagate. -/
theorem test_connection_no_raise_amended :
    (∀ (enabled : Bool) (token : String) (u : Except PyExc String),
      ∃ b, gitlab_test_connection enabled token u = Except.ok b) ∧
    (∀ (enabled : Bool) (v ns : Except PyExc String),
      (∀ e, v = Except.error e → radicleCaught e = true) →
      (∀ e, ns = Except.error e → radicleCaught e = true) →
      ∃ b, radicle_test_connection enabled v ns = Except.ok b) ∧
    (∀ (enabled : Bool) (r : Except PyExc String),
      (∀ e, r = Except.error e → isRequestException e = true) →
      ∃ b, ipfs_test_connection enabled r = Except.ok b) := by
  refine ⟨?_, ?_, ?_⟩
  · intro enabled token u
    cases h : (!enabled || token == "")
    · cases u with
      | ok v => exact ⟨true, by simp [gitlab_test_connection, h]⟩
      | error e => exact ⟨false, by simp [gitlab_test_connection, h]⟩
    · exact ⟨false, by simp [gitlab_test_connection, h]⟩
  · intro enabled v ns h1 h2
    cases enabled with
    | false => exact ⟨false, rfl⟩
    | true =>
        cases v with
        | error e =>
            exact ⟨false, by simp [radicle_test_connection, h1 e rfl]⟩
        | ok x =>
            cases ns with
            | error e =>
                exact ⟨false, by simp [radicle_test_connection, h2 e rfl]⟩
            | ok y => exact ⟨true, rfl⟩
  · intro enabled r h1
    cases enabled with
    | false => exact ⟨false, rfl⟩
    | true =>
        cases r with
        | error e => exact ⟨false, by simp [ipfs_test_connection, h1 e rfl]⟩
        | ok x => exact ⟨true, rfl⟩

/-- C7 witness: an absent `rad` CLI (`FileNotFoundError`) makes the
Radicle connection test return false without raising. -/
theorem test_connection_no_raise_witness :
    ∃ b, radicle_test_connection true
        (Except.error (PyExc.fileNotFoundError "rad: not found"))
        (Except.ok "") = Except.ok b :=
  test_connection_no_raise_amended.2.1 true
    (Except.error (PyExc.fileNotFoundError "rad: not found")) (Except.ok "")
    (by intro e he; cases he; rfl) (by intro e he; cases he)

theorem leadsWith_append (p q : List Char) : leadsWith p (p ++ q) = true := by
  induction p with
  | nil => rfl
  | cons c cs ih => simp [leadsWith, ih]

theorem trailsWith_append (p q : List Char) :
    trailsWith q (p ++ q) = true := by
  unfold trailsWith
  rw [List.reverse_append]
  exact leadsWith_append q.reverse p.reverse

/-- C9: a credential configured as an environment placeholder whose
variable is unset resolves to the empty string, and the GitLab adapter's
connection test then returns false without raising. -/
theorem credential_placeholder_resolves_empty (var : String)
    (config env : List (String × String)) (u : Except PyExc String)
    (hconf : lookupStr config "token" = some ("$\x7b" ++ var ++ "\x7d"))
    (hunset : lookupStr env var = none) :
    _get_token config env "token" = "" ∧
    gitlab_test_connection true (_get_token config env "token") u
      = Except.ok false := by
  have hdata : ("$\x7b" ++ var ++ "\x7d").data
      = "$\x7b".data ++ (var.data ++ "\x7d".data) := by
    rw [String.data_append, String.data_append, List.append_assoc]
  have htok : _get_token config env "token" = "" := by
    unfold _get_token
    rw [hconf]
    simp only [Option.getD_some]
    have hlead : leadsWith ("$\x7b".data) ("$\x7b" ++ var ++ "\x7d").data
        = true := by
      rw [hdata]
      exact leadsWith_append _ _
    have htrail : trailsWith ("\x7d".data) ("$\x7b" ++ var ++ "\x7d").data
        = true := by
      rw [String.data_append]
      exact trailsWith_append _ _
    rw [hlead, htrail]
    simp only [Bool.and_self, if_true]
    have hdrop : (("$\x7b" ++ var ++ "\x7d").data.drop 2).dropLast
        = var.data := by
      rw [hdata]
      have h2 : ("$\x7b".data).length = 2 := rfl
      rw [← h2, List.drop_left, List.dropLast_concat]
    rw [hdrop]
    have hmk : String.mk var.data = var := rfl
    rw [hmk, hunset]
    rfl
  refine ⟨htok, ?_⟩
  rw [htok]
  rfl

/-- C9 witness: `GITLAB_TOKEN` placeholder with an empty process
environment. -/
theorem credential_placeholder_resolves_empty_witness :
    _get_token [("token", "$\x7bGITLAB_TOKEN\x7d")] [] "token" = "" ∧
    gitlab_test_connection true
        (_get_token [("token", "$\x7bGITLAB_TOKEN\x7d")] [] "token")
        (Except.ok "u")
      = Except.ok false :=
  credential_placeholder_resolves_empty "GITLAB_TOKEN"
    [("token", "$\x7bGITLAB_TOKEN\x7d")] [] (Except.ok "u") (by decide) rfl

/-! ### Lemmas about the target-summary grouping loop -/

theorem bumpStats_success (s : TargetStats) (st : String) :
    (bumpStats s st).success
      = s.success + (if st == "success" then 1 else 0) := by
  unfold bumpStats
  cases h1 : st == "success"
  · cases h2 : st == "error" <;> cases h3 : st == "dry_run" <;>
      simp [h2, h3]
  · simp

theorem bumpStats_failed (s : TargetStats) (st : String) :
    (bumpStats s st).failed
      = s.failed + (if st == "error" then 1 else 0) := by
  unfold bumpStats
  cases h1 : st == "success"
  · cases h2 : st == "error" <;> cases h3 : st == "dry_run" <;>
      simp [h2, h3]
  · have hs : st = "success" := eq_of_beq h1
    subst hs
    simp

theorem bumpStats_dry_run (s : TargetStats) (st : String) :
    (bumpStats s st).dry_run
      = s.dry_run + (if st == "dry_run" then 1 else 0) := by
  unfold bumpStats
  cases h1 : st == "success"
  · cases h2 : st == "error"
    · cases h3 : st == "dry_run" <;> simp [h2, h3]
    · have hs : st = "error" := eq_of_beq h2
      subst hs
      simp
  · have hs : st = "success" := eq_of_beq h1
    subst hs
    simp

theorem statsOf_updateAssoc (ts : List (String × TargetStats))
    (key st k : String) :
    statsOf (updateAssoc ts key st) k
      = if k = key then bumpStats (statsOf ts k) st else statsOf ts k := by
  induction ts with
  | nil =>
      by_cases hk : k = key
      · simp [updateAssoc, statsOf, List.find?_cons, hk]
      · simp [updateAssoc, statsOf, List.find?_cons, hk, Ne.symm hk]
  | cons e rest ih =>
      obtain ⟨k', s'⟩ := e
      by_cases h1 : k' = key <;> by_cases h2 : k = key <;>
        by_cases h3 : k' = k <;>
        simp_all [updateAssoc, statsOf, List.find?_cons]

theorem statsOf_foldl (rs : List TaskOutcome)
    (ts : List (String × TargetStats)) (k : String) :
    statsOf (rs.foldl (fun a r => updateAssoc a r.target r.status) ts) k
      = addStats (statsOf ts k) (countsFor rs k) := by
  induction rs generalizing ts with
  | nil => simp [countsFor, addStats]
  | cons r rs ih =>
      rw [List.foldl_cons, ih, statsOf_updateAssoc]
      by_cases hk : k = r.target
      · have hbeq : (r.target == k) = true := by simp [hk]
        simp only [if_pos hk, addStats, countsFor, List.countP_cons, hbeq,
          Bool.true_and, bumpStats_success, bumpStats_failed,
          bumpStats_dry_run, TargetStats.mk.injEq]
        refine ⟨?_, ?_, ?_⟩ <;> omega
      · have hbeq : (r.target == k) = false := by
          simp
          exact fun h => hk h.symm
        simp only [if_neg hk, addStats, countsFor, List.countP_cons, hbeq,
          Bool.false_and, if_neg (Bool.false_ne_true), TargetStats.mk.injEq]
        refine ⟨?_, ?_, ?_⟩ <;> omega

theorem statsOf_buildTargetSummary (rs : List TaskOutcome) (k : String) :
    statsOf (buildTargetSummary rs) k = countsFor rs k := by
  unfold buildTargetSummary
  rw [statsOf_foldl]
  simp [statsOf, addStats]

theorem sumBy_updateAssoc (f : TargetStats → Nat) (g : String → Nat)
    (hf : ∀ s st, f (bumpStats s st) = f s + g st)
    (hf0 : f ⟨0, 0, 0⟩ = 0)
    (ts : List (String × TargetStats)) (key st : String) :
    sumBy f (updateAssoc ts key st) = sumBy f ts + g st := by
  induction ts with
  | nil => simp [updateAssoc, sumBy, hf, hf0]
  | cons e rest ih =>
      obtain ⟨k', s'⟩ := e
      by_cases h : k' = key
      · simp only [updateAssoc, h, beq_self_eq_true, if_true, sumBy,
          List.map_cons, List.sum_cons, hf]
        omega
      · have hb : (k' == key) = false := by simp [h]
        simp only [updateAssoc, hb, Bool.false_eq_true, if_false, sumBy,
          List.map_cons, List.sum_cons]
        have := ih
        simp only [sumBy] at this
        omega

theorem sumBy_foldl (f : TargetStats → Nat) (g : String → Nat)
    (hf : ∀ s st, f (bumpStats s st) = f s + g st)
    (hf0 : f ⟨0, 0, 0⟩ = 0)
    (rs : List TaskOutcome) (ts : List (String × TargetStats)) :
    sumBy f (rs.foldl (fun a r => updateAssoc a r.target r.status) ts)
      = sumBy f ts + (rs.map (fun r => g r.status)).sum := by
  induction rs generalizing ts with
  | nil => simp
  | cons r rs ih =>
      rw [List.foldl_cons, ih, sumBy_updateAssoc f g hf hf0]
      simp
      omega

theorem sum_status_indicator (stv : String) (rs : List TaskOutcome) :
    (rs.map (fun r => if r.status == stv then 1 else 0)).sum
      = (rs.filter (fun r => r.status == stv)).length := by
  induction rs with
  | nil => rfl
  | cons r rs ih =>
      cases h : r.status == stv
      · simp only [List.map_cons, List.sum_cons, List.filter_cons, h,
          Bool.false_eq_true, if_false, ih]
        omega
      · simp only [List.map_cons, List.sum_cons, List.filter_cons, h,
          eq_self_iff_true, if_true, List.length_cons, ih]
        omega

theorem hasKey_updateAssoc_self (ts : List (String × TargetStats))
    (key st : String) : hasKey (updateAssoc ts key st) key = true := by
  induction ts with
  | nil => simp [updateAssoc, hasKey]
  | cons e rest ih =>
      obtain ⟨k', s'⟩ := e
      by_cases h : k' = key
      · subst h
        simp [updateAssoc, hasKey]
      · have hb : (k' == key) = false := by simp [h]
        simp only [updateAssoc, hb, Bool.false_eq_true, if_false, hasKey,
          List.any_cons, Bool.or_eq_true]
        exact Or.inr (by simpa [hasKey] using ih)

theorem hasKey_updateAssoc_mono (ts : List (String × TargetStats))
    (key st k : String) (h : hasKey ts k = true) :
    hasKey (updateAssoc ts key st) k = true := by
  induction ts with
  | nil => simp [hasKey] at h
  | cons e rest ih =>
      obtain ⟨k', s'⟩ := e
      by_cases hk : k' = key
      · subst hk
        simp only [updateAssoc, beq_self_eq_true, if_true]
        simpa [hasKey, List.any_cons] using h
      · have hb : (k' == key) = false := by simp [hk]
        simp only [updateAssoc, hb, Bool.false_eq_true, if_false]
        simp only [hasKey, List.any_cons, Bool.or_eq_true] at h ⊢
        rcases h with h' | h'
        · exact Or.inl h'
        · exact Or.inr (by simpa [hasKey] using ih (by simpa [hasKey] using h'))

theorem hasKey_foldl_mono (rs : List TaskOutcome)
    (ts : List (String × TargetStats)) (k : String)
    (h : hasKey ts k = true) :
    hasKey (rs.foldl (fun a r => updateAssoc a r.target r.status) ts) k
      = true := by
  induction rs generalizing ts with
  | nil => exact h
  | cons r rs ih =>
      rw [List.foldl_cons]
      exact ih _ (hasKey_updateAssoc_mono ts r.target r.status k h)

theorem hasKey_foldl_of_mem (rs : List TaskOutcome)
    (ts : List (String × TargetStats)) (r : TaskOutcome) (h : r ∈ rs) :
    hasKey (rs.foldl (fun a r => updateAssoc a r.target r.status) ts)
      r.target = true := by
  induction rs generalizing ts with
  | nil => cases h
  | cons a rs ih =>
      rw [List.foldl_cons]
      rcases List.mem_cons.mp h with h' | h'
      · subst h'
        exact hasKey_foldl_mono rs _ r.target
          (hasKey_updateAssoc_self ts r.target r.status)
      · exact ih _ h'

/-- C10: the per-target breakdown of `generate_summary` is consistent with
its overall counts — per-target successes sum to `successful`, likewise
for `failed` and `dry_run`, every result's target key appears in
`target_summary` — and all counts depend only on the multiset of results,
not on the collection order. -/
theorem generate_summary_consistent (results results2 : List TaskOutcome)
    (hperm : results.Perm results2) :
    sumBy (fun s => s.success) (generate_summary results).target_summary
      = (generate_summary results).successful ∧
    sumBy (fun s => s.failed) (generate_summary results).target_summary
      = (generate_summary results).failed ∧
    sumBy (fun s => s.dry_run) (generate_summary results).target_summary
      = (generate_summary results).dry_run ∧
    (∀ r ∈ results,
      hasKey (generate_summary results).target_summary r.target = true) ∧
    (generate_summary results).total_backups
      = (generate_summary results2).total_backups ∧
    (generate_summary results).successful
      = (generate_summary results2).successful ∧
    (generate_summary results).failed = (generate_summary results2).failed ∧
    (generate_summary results).dry_run
      = (generate_summary results2).dry_run ∧
    ∀ k, statsOf (generate_summary results).target_summary k
      = statsOf (generate_summary results2).target_summary k := by
  simp only [generate_summary]
  refine ⟨?_, ?_, ?_, ?_, ?_, ?_, ?_, ?_, ?_⟩
  · rw [buildTargetSummary,
      sumBy_foldl (fun s => s.success)
        (fun st => if st == "success" then 1 else 0) bumpStats_success rfl]
    have h0 : sumBy (fun s => s.success)
        ([] : List (String × TargetStats)) = 0 := rfl
    rw [h0, Nat.zero_add]
    exact sum_status_indicator "success" results
  · rw [buildTargetSummary,
      sumBy_foldl (fun s => s.failed)
        (fun st => if st == "error" then 1 else 0) bumpStats_failed rfl]
    have h0 : sumBy (fun s => s.failed)
        ([] : List (String × TargetStats)) = 0 := rfl
    rw [h0, Nat.zero_add]
    exact sum_status_indicator "error" results
  · rw [buildTargetSummary,
      sumBy_foldl (fun s => s.dry_run)
        (fun st => if st == "dry_run" then 1 else 0) bumpStats_dry_run rfl]
    have h0 : sumBy (fun s => s.dry_run)
        ([] : List (String × TargetStats)) = 0 := rfl
    rw [h0, Nat.zero_add]
    exact sum_status_indicator "dry_run" results
  · intro r hr
    exact hasKey_foldl_of_mem results [] r hr
  · exact hperm.length_eq
  · exact (hperm.filter _).length_eq
  · exact (hperm.filter _).length_eq
  · exact (hperm.filter _).length_eq
  · intro k
    rw [statsOf_buildTargetSummary, statsOf_buildTargetSummary]
    unfold countsFor
    rw [hperm.countP_eq, hperm.countP_eq, hperm.countP_eq]

/-! ### Lemmas about the local adapter's retention cleanup -/

theorem deleteLoop_false (vs : List String) (entries : List FSEntry) :
    deleteLoop (fun _ => false) vs entries
      = entries.filter (fun e => !(vs.contains e.name)) := by
  induction vs generalizing entries with
  | nil => simp [deleteLoop]
  | cons v rest ih =>
      simp only [deleteLoop, Bool.false_eq_true, if_false]
      rw [ih, List.filter_filter]
      apply List.filter_congr
      intro e _
      rw [List.contains_cons, Bool.not_or, Bool.and_comm]

theorem name_inj_of_pairwise (l : List FSEntry)
    (h : l.Pairwise (fun a b => a.name ≠ b.name)) :
    ∀ a ∈ l, ∀ b ∈ l, a.name = b.name → a = b := by
  induction l with
  | nil => intro a ha; cases ha
  | cons x xs ih =>
      intro a ha b hb hab
      have hx := (List.pairwise_cons.mp h).1
      have hxs := (List.pairwise_cons.mp h).2
      rcases List.mem_cons.mp ha with rfl | ha'
      · rcases List.mem_cons.mp hb with rfl | hb'
        · rfl
        · exact absurd hab (hx b hb')
      · rcases List.mem_cons.mp hb with rfl | hb'
        · exact absurd hab.symm (hx a ha')
        · exact ih hxs a ha' b hb' hab

theorem snapshotMatches_new (rn ts : String) (c : Nat) :
    snapshotMatches true rn ⟨rn ++ "_" ++ ts ++ ".tar.gz", c⟩ = true := by
  have h1 : leadsWith (rn ++ "_").data
      ((rn ++ "_" ++ ts ++ ".tar.gz").data) = true := by
    have ha : rn ++ "_" ++ ts ++ ".tar.gz"
        = (rn ++ "_") ++ (ts ++ ".tar.gz") := by
      rw [String.append_assoc]
    rw [ha, String.data_append]
    exact leadsWith_append _ _
  have h2 : trailsWith (".tar.gz".data)
      ((rn ++ "_" ++ ts ++ ".tar.gz").data) = true := by
    rw [String.data_append]
    exact trailsWith_append _ _
  have hdef : snapshotMatches true rn ⟨rn ++ "_" ++ ts ++ ".tar.gz", c⟩
      = (leadsWith (rn ++ "_").data ((rn ++ "_" ++ ts ++ ".tar.gz").data) &&
         (true
            && trailsWith (".tar.gz").data
              ((rn ++ "_" ++ ts ++ ".tar.gz").data)
          || !true)) := rfl
  rw [hdef, h1, h2]
  rfl

theorem string_append_tar_ne (s : String) : s ++ ".tar.gz" ≠ s := by
  intro h
  have hd := congrArg String.data h
  rw [String.data_append] at hd
  have : (".tar.gz" : String).data = [] := List.append_right_eq_self.mp hd
  exact absurd this (by decide)

/-- C8 counterexample: with keep_versions = 3 and five pre-existing
snapshots, a failure deleting the first stale snapshot ends the whole
cleanup pass (one `try` wraps the loop): all six snapshots remain —
including the two stale ones whose deletion was never attempted — so a
single failure does block deletion of the others. -/
theorem local_retention_counterexample :
    ((local_backup_repository true 3 (fun s => s == "r_3.tar.gz") repoR 6
        oldSnapshots).2.filter (snapshotMatches true "r")).length = 6 ∧
    FSEntry.mk "r_1.tar.gz" 1 ∈
      (local_backup_repository true 3 (fun s => s == "r_3.tar.gz") repoR 6
        oldSnapshots).2 ∧
    FSEntry.mk "r_2.tar.gz" 2 ∈
      (local_backup_repository true 3 (fun s => s == "r_3.tar.gz") repoR 6
        oldSnapshots).2 := by decide

theorem cleanup_old_versions_eq (c : Bool) (k : Nat) (rf : String → Bool)
    (rn : String) (entries : List FSEntry) :
    _cleanup_old_versions c k rf rn entries
      = deleteLoop rf
          (((List.insertionSort ctimeGE
              (entries.filter (snapshotMatches c rn))).drop k).map
            (fun e => e.name)) entries := rfl

/-- C8 amended: with keep_versions = 3 and five pre-existing timestamped
snapshots, a backup in which all deletions succeed leaves exactly 3
snapshots — the 3 newest ranked by creation time, including the one this
call created — and a deletion failure never aborts the run (the call still
returns success); however a failure deleting one stale snapshot does end
that cleanup pass, leaving the remaining stale snapshots in place. -/
theorem local_retention_amended (repo : RepoData) (old : List FSEntry)
    (now : Nat)
    (h5 : old.length = 5)
    (hmatch : ∀ e ∈ old, snapshotMatches true repo.name e = true)
    (hct : ∀ e ∈ old, e.ctime < now)
    (hnn : old.Pairwise (fun a b => a.name ≠ b.name))
    (hnew : ∀ e ∈ old,
      e.name ≠ repo.name ++ "_" ++ timestampStr now ++ ".tar.gz" ∧
      e.name ≠ repo.name ++ "_" ++ timestampStr now) :
    (local_backup_repository true 3 (fun _ => false) repo now old).1.status
      = "success" ∧
    ((local_backup_repository true 3 (fun _ => false) repo now old).2.filter
        (snapshotMatches true repo.name)).length = 3 ∧
    FSEntry.mk (repo.name ++ "_" ++ timestampStr now ++ ".tar.gz") now ∈
      (local_backup_repository true 3 (fun _ => false) repo now old).2 ∧
    (∀ e ∈ (local_backup_repository true 3 (fun _ => false) repo now
        old).2.filter (snapshotMatches true repo.name),
      ∀ d ∈ old,
        d ∉ (local_backup_repository true 3 (fun _ => false) repo now old).2 →
        d.ctime ≤ e.ctime) ∧
    (∀ g : String → Bool,
      (local_backup_repository true 3 g repo now old).1.status
        = "success") := by
  have hE2 : ((old
          ++ [(⟨repo.name ++ "_" ++ timestampStr now, now⟩ : FSEntry)])
        ++ [(⟨repo.name ++ "_" ++ timestampStr now ++ ".tar.gz", now⟩
              : FSEntry)]).filter
      (fun e => !(e.name == repo.name ++ "_" ++ timestampStr now))
      = old
        ++ [(⟨repo.name ++ "_" ++ timestampStr now ++ ".tar.gz", now⟩
              : FSEntry)] := by
    rw [List.filter_append, List.filter_append]
    have h1 : old.filter
        (fun e => !(e.name == repo.name ++ "_" ++ timestampStr now)) = old :=
      List.filter_eq_self.mpr (fun e he => by simp [(hnew e he).2])
    have h2 : ([(⟨repo.name ++ "_" ++ timestampStr now, now⟩ : FSEntry)]).filter
        (fun e => !(e.name == repo.name ++ "_" ++ timestampStr now)) = [] := by
      simp
    have h3 : ([(⟨repo.name ++ "_" ++ timestampStr now ++ ".tar.gz", now⟩
          : FSEntry)]).filter
        (fun e => !(e.name == repo.name ++ "_" ++ timestampStr now))
        = [(⟨repo.name ++ "_" ++ timestampStr now ++ ".tar.gz", now⟩
              : FSEntry)] := by
      simp [string_append_tar_ne (repo.name ++ "_" ++ timestampStr now)]
    rw [h1, h2, h3, List.append_nil]
  have hL6 : (old
      ++ [(⟨repo.name ++ "_" ++ timestampStr now ++ ".tar.gz", now⟩
            : FSEntry)]).length = 6 := by
    simp [h5]
  have hmatchL : ∀ e ∈ old
      ++ [(⟨repo.name ++ "_" ++ timestampStr now ++ ".tar.gz", now⟩
            : FSEntry)],
      snapshotMatches true repo.name e = true := by
    intro e he
    rcases List.mem_append.mp he with h | h
    · exact hmatch e h
    · have : e = ⟨repo.name ++ "_" ++ timestampStr now ++ ".tar.gz", now⟩ :=
        by simpa using h
      subst this
      exact snapshotMatches_new repo.name (timestampStr now) now
  have hfiltL : (old
        ++ [(⟨repo.name ++ "_" ++ timestampStr now ++ ".tar.gz", now⟩
              : FSEntry)]).filter (snapshotMatches true repo.name)
      = old
        ++ [(⟨repo.name ++ "_" ++ timestampStr now ++ ".tar.gz", now⟩
              : FSEntry)] :=
    List.filter_eq_self.mpr hmatchL
  have hSperm : (List.insertionSort ctimeGE (old
        ++ [(⟨repo.name ++ "_" ++ timestampStr now ++ ".tar.gz", now⟩
              : FSEntry)])).Perm (old
        ++ [(⟨repo.name ++ "_" ++ timestampStr now ++ ".tar.gz", now⟩
              : FSEntry)]) :=
    List.perm_insertionSort _ _
  have hSsorted : List.Sorted ctimeGE (List.insertionSort ctimeGE (old
      ++ [(⟨repo.name ++ "_" ++ timestampStr now ++ ".tar.gz", now⟩
            : FSEntry)])) :=
    List.sorted_insertionSort _ _
  have hSlen : (List.insertionSort ctimeGE (old
      ++ [(⟨repo.name ++ "_" ++ timestampStr now ++ ".tar.gz", now⟩
            : FSEntry)])).length = 6 := by
    rw [hSperm.length_eq, hL6]
  have hsplit := List.take_append_drop 3 (List.insertionSort ctimeGE (old
      ++ [(⟨repo.name ++ "_" ++ timestampStr now ++ ".tar.gz", now⟩
            : FSEntry)]))
  have hcross : ∀ a ∈ (List.insertionSort ctimeGE (old
        ++ [(⟨repo.name ++ "_" ++ timestampStr now ++ ".tar.gz", now⟩
              : FSEntry)])).take 3,
      ∀ b ∈ (List.insertionSort ctimeGE (old
        ++ [(⟨repo.name ++ "_" ++ timestampStr now ++ ".tar.gz", now⟩
              : FSEntry)])).drop 3, ctimeGE a b := by
    have h := hSsorted
    rw [← hsplit] at h
    exact (List.pairwise_append.mp h).2.2
  have hnamesL : (old
      ++ [(⟨repo.name ++ "_" ++ timestampStr now ++ ".tar.gz", now⟩
            : FSEntry)]).Pairwise (fun a b => a.name ≠ b.name) := by
    rw [List.pairwise_append]
    refine ⟨hnn, List.pairwise_singleton _ _, ?_⟩
    intro a ha b hb
    have hb' : b = ⟨repo.name ++ "_" ++ timestampStr now ++ ".tar.gz", now⟩ :=
      by simpa using hb
    subst hb'
    exact (hnew a ha).1
  have hnamesS : (List.insertionSort ctimeGE (old
      ++ [(⟨repo.name ++ "_" ++ timestampStr now ++ ".tar.gz", now⟩
            : FSEntry)])).Pairwise (fun a b => a.name ≠ b.name) :=
    (List.Perm.pairwise_iff (fun h => Ne.symm h) hSperm).mpr hnamesL
  have hnamecross : ∀ a ∈ (List.insertionSort ctimeGE (old
        ++ [(⟨repo.name ++ "_" ++ timestampStr now ++ ".tar.gz", now⟩
              : FSEntry)])).take 3,
      ∀ b ∈ (List.insertionSort ctimeGE (old
        ++ [(⟨repo.name ++ "_" ++ timestampStr now ++ ".tar.gz", now⟩
              : FSEntry)])).drop 3, a.name ≠ b.name := by
    have h := hnamesS
    rw [← hsplit] at h
    exact (List.pairwise_append.mp h).2.2
  have htake_len : ((List.insertionSort ctimeGE (old
      ++ [(⟨repo.name ++ "_" ++ timestampStr now ++ ".tar.gz", now⟩
            : FSEntry)])).take 3).length = 3 := by
    rw [List.length_take, hSlen]
    decide
  have hnewMemL : (⟨repo.name ++ "_" ++ timestampStr now ++ ".tar.gz", now⟩
        : FSEntry) ∈ old
      ++ [(⟨repo.name ++ "_" ++ timestampStr now ++ ".tar.gz", now⟩
            : FSEntry)] := by
    simp
  have hnewMemS : (⟨repo.name ++ "_" ++ timestampStr now ++ ".tar.gz", now⟩
        : FSEntry) ∈ List.insertionSort ctimeGE (old
      ++ [(⟨repo.name ++ "_" ++ timestampStr now ++ ".tar.gz", now⟩
            : FSEntry)]) :=
    hSperm.mem_iff.mpr hnewMemL
  have hnewTake : (⟨repo.name ++ "_" ++ timestampStr now ++ ".tar.gz", now⟩
        : FSEntry) ∈ (List.insertionSort ctimeGE (old
      ++ [(⟨repo.name ++ "_" ++ timestampStr now ++ ".tar.gz", now⟩
            : FSEntry)])).take 3 := by
    have hmem := hnewMemS
    rw [← hsplit] at hmem
    rcases List.mem_append.mp hmem with h | h
    · exact h
    · exfalso
      have htne : (List.insertionSort ctimeGE (old
          ++ [(⟨repo.name ++ "_" ++ timestampStr now ++ ".tar.gz", now⟩
                : FSEntry)])).take 3 ≠ [] := by
        intro hnil
        rw [hnil] at htake_len
        simp at htake_len
      obtain ⟨x, hx⟩ := List.exists_mem_of_ne_nil _ htne
      have hge : ctimeGE x
          ⟨repo.name ++ "_" ++ timestampStr now ++ ".tar.gz", now⟩ :=
        hcross x hx _ h
      have hxS : x ∈ List.insertionSort ctimeGE (old
          ++ [(⟨repo.name ++ "_" ++ timestampStr now ++ ".tar.gz", now⟩
                : FSEntry)]) := by
        rw [← hsplit]
        exact List.mem_append.mpr (Or.inl hx)
      rcases List.mem_append.mp (hSperm.mem_iff.mp hxS) with hxo | hxn
      · have hlt := hct x hxo
        have hle : now ≤ x.ctime := hge
        omega
      · have hxe : x
            = ⟨repo.name ++ "_" ++ timestampStr now ++ ".tar.gz", now⟩ :=
          by simpa using hxn
        subst hxe
        exact (hnamecross _ hx _ h) rfl
  have hB2 : (local_backup_repository true 3 (fun _ => false) repo now
        old).2
      = (old ++ [(⟨repo.name ++ "_" ++ timestampStr now ++ ".tar.gz", now⟩
            : FSEntry)]).filter
          (fun e => !((((List.insertionSort ctimeGE (old
              ++ [(⟨repo.name ++ "_" ++ timestampStr now ++ ".tar.gz", now⟩
                    : FSEntry)])).drop 3).map
            (fun x => x.name)).contains e.name)) := by
    show _cleanup_old_versions true 3 (fun _ => false) repo.name
        (((old
              ++ [(⟨repo.name ++ "_" ++ timestampStr now, now⟩ : FSEntry)])
            ++ [(⟨repo.name ++ "_" ++ timestampStr now ++ ".tar.gz", now⟩
                  : FSEntry)]).filter
          (fun e => !(e.name == repo.name ++ "_" ++ timestampStr now))) = _
    rw [hE2, cleanup_old_versions_eq, hfiltL, deleteLoop_false]
  have hfilt_drop : ((List.insertionSort ctimeGE (old
        ++ [(⟨repo.name ++ "_" ++ timestampStr now ++ ".tar.gz", now⟩
              : FSEntry)])).drop 3).filter
      (fun e => !((((List.insertionSort ctimeGE (old
          ++ [(⟨repo.name ++ "_" ++ timestampStr now ++ ".tar.gz", now⟩
                : FSEntry)])).drop 3).map
        (fun x => x.name)).contains e.name)) = [] := by
    refine List.filter_eq_nil_iff.mpr ?_
    intro v hv
    have hmem : v.name ∈ ((List.insertionSort ctimeGE (old
        ++ [(⟨repo.name ++ "_" ++ timestampStr now ++ ".tar.gz", now⟩
              : FSEntry)])).drop 3).map (fun x => x.name) :=
      List.mem_map_of_mem _ hv
    have hcontains : (((List.insertionSort ctimeGE (old
        ++ [(⟨repo.name ++ "_" ++ timestampStr now ++ ".tar.gz", now⟩
              : FSEntry)])).drop 3).map (fun x => x.name)).contains v.name
        = true :=
      List.elem_iff.mpr hmem
    intro hp
    rw [hcontains] at hp
    simp at hp
  have hfilt_take : ((List.insertionSort ctimeGE (old
        ++ [(⟨repo.name ++ "_" ++ timestampStr now ++ ".tar.gz", now⟩
              : FSEntry)])).take 3).filter
      (fun e => !((((List.insertionSort ctimeGE (old
          ++ [(⟨repo.name ++ "_" ++ timestampStr now ++ ".tar.gz", now⟩
                : FSEntry)])).drop 3).map
        (fun x => x.name)).contains e.name))
      = (List.insertionSort ctimeGE (old
        ++ [(⟨repo.name ++ "_" ++ timestampStr now ++ ".tar.gz", now⟩
              : FSEntry)])).take 3 := by
    refine List.filter_eq_self.mpr ?_
    intro a ha
    cases hc : (((List.insertionSort ctimeGE (old
        ++ [(⟨repo.name ++ "_" ++ timestampStr now ++ ".tar.gz", now⟩
              : FSEntry)])).drop 3).map (fun x => x.name)).contains a.name
    · rfl
    · exfalso
      obtain ⟨v, hv, hvn⟩ := List.mem_map.mp (List.elem_iff.mp hc)
      exact (hnamecross a ha v hv) hvn.symm
  have hSfilt : (List.insertionSort ctimeGE (old
        ++ [(⟨repo.name ++ "_" ++ timestampStr now ++ ".tar.gz", now⟩
              : FSEntry)])).filter
      (fun e => !((((List.insertionSort ctimeGE (old
          ++ [(⟨repo.name ++ "_" ++ timestampStr now ++ ".tar.gz", now⟩
                : FSEntry)])).drop 3).map
        (fun x => x.name)).contains e.name))
      = (List.insertionSort ctimeGE (old
        ++ [(⟨repo.name ++ "_" ++ timestampStr now ++ ".tar.gz", now⟩
              : FSEntry)])).take 3 := by
    have h := List.filter_append
      (p := fun e => !((((List.insertionSort ctimeGE (old
          ++ [(⟨repo.name ++ "_" ++ timestampStr now ++ ".tar.gz", now⟩
                : FSEntry)])).drop 3).map
        (fun x => x.name)).contains e.name))
      ((List.insertionSort ctimeGE (old
        ++ [(⟨repo.name ++ "_" ++ timestampStr now ++ ".tar.gz", now⟩
              : FSEntry)])).take 3)
      ((List.insertionSort ctimeGE (old
        ++ [(⟨repo.name ++ "_" ++ timestampStr now ++ ".tar.gz", now⟩
              : FSEntry)])).drop 3)
    rw [hsplit] at h
    rw [h, hfilt_take, hfilt_drop, List.append_nil]
  have hkeptPerm : ((old
        ++ [(⟨repo.name ++ "_" ++ timestampStr now ++ ".tar.gz", now⟩
              : FSEntry)]).filter
      (fun e => !((((List.insertionSort ctimeGE (old
          ++ [(⟨repo.name ++ "_" ++ timestampStr now ++ ".tar.gz", now⟩
                : FSEntry)])).drop 3).map
        (fun x => x.name)).contains e.name))).Perm
      ((List.insertionSort ctimeGE (old
        ++ [(⟨repo.name ++ "_" ++ timestampStr now ++ ".tar.gz", now⟩
              : FSEntry)])).take 3) := by
    have h := (hSperm.filter
      (fun e => !((((List.insertionSort ctimeGE (old
          ++ [(⟨repo.name ++ "_" ++ timestampStr now ++ ".tar.gz", now⟩
                : FSEntry)])).drop 3).map
        (fun x => x.name)).contains e.name))).symm
    rw [hSfilt] at h
    exact h
  have hkeptEq : ((old
        ++ [(⟨repo.name ++ "_" ++ timestampStr now ++ ".tar.gz", now⟩
              : FSEntry)]).filter
      (fun e => !((((List.insertionSort ctimeGE (old
          ++ [(⟨repo.name ++ "_" ++ timestampStr now ++ ".tar.gz", now⟩
                : FSEntry)])).drop 3).map
        (fun x => x.name)).contains e.name))).filter
      (snapshotMatches true repo.name)
      = (old
        ++ [(⟨repo.name ++ "_" ++ timestampStr now ++ ".tar.gz", now⟩
              : FSEntry)]).filter
      (fun e => !((((List.insertionSort ctimeGE (old
          ++ [(⟨repo.name ++ "_" ++ timestampStr now ++ ".tar.gz", now⟩
                : FSEntry)])).drop 3).map
        (fun x => x.name)).contains e.name)) :=
    List.filter_eq_self.mpr
      (fun a ha => hmatchL a (List.mem_of_mem_filter ha))
  refine ⟨rfl, ?_, ?_, ?_, fun g => rfl⟩
  · rw [hB2, hkeptEq, hkeptPerm.length_eq, htake_len]
  · rw [hB2]
    refine List.mem_filter.mpr ⟨hnewMemL, ?_⟩
    cases hc : (((List.insertionSort ctimeGE (old
        ++ [(⟨repo.name ++ "_" ++ timestampStr now ++ ".tar.gz", now⟩
              : FSEntry)])).drop 3).map (fun x => x.name)).contains
        (FSEntry.mk (repo.name ++ "_" ++ timestampStr now ++ ".tar.gz")
          now).name
    · rfl
    · exfalso
      obtain ⟨v, hv, hvn⟩ := List.mem_map.mp (List.elem_iff.mp hc)
      exact (hnamecross _ hnewTake v hv) hvn.symm
  · intro e he d hd hdnot
    rw [hB2, hkeptEq] at he
    rw [hB2] at hdnot
    have heTake := hkeptPerm.mem_iff.mp he
    have hdL : d ∈ old
        ++ [(⟨repo.name ++ "_" ++ timestampStr now ++ ".tar.gz", now⟩
              : FSEntry)] :=
      List.mem_append.mpr (Or.inl hd)
    have hcont : (((List.insertionSort ctimeGE (old
        ++ [(⟨repo.name ++ "_" ++ timestampStr now ++ ".tar.gz", now⟩
              : FSEntry)])).drop 3).map (fun x => x.name)).contains d.name
        = true := by
      cases hc : (((List.insertionSort ctimeGE (old
          ++ [(⟨repo.name ++ "_" ++ timestampStr now ++ ".tar.gz", now⟩
                : FSEntry)])).drop 3).map (fun x => x.name)).contains d.name
      · exact absurd (List.mem_filter.mpr ⟨hdL, by rw [hc]; rfl⟩) hdnot
      · rfl
    obtain ⟨v, hv, hvn⟩ := List.mem_map.mp (List.elem_iff.mp hcont)
    have hvS : v ∈ List.insertionSort ctimeGE (old
        ++ [(⟨repo.name ++ "_" ++ timestampStr now ++ ".tar.gz", now⟩
              : FSEntry)]) := by
      rw [← hsplit]
      exact List.mem_append.mpr (Or.inr hv)
    have hvL := hSperm.mem_iff.mp hvS
    have hvd : v = d :=
      name_inj_of_pairwise _ hnamesL v hvL d hdL hvn
    have hge : ctimeGE e v := hcross e heTake v hv
    rw [hvd] at hge
    exact hge

/-- C8 witness: five snapshots with creation times 1..5, clock at 6,
all deletions succeeding. -/
theorem local_retention_amended_witness :
    (local_backup_repository true 3 (fun _ => false) repoR 6
        oldSnapshots).1.status = "success" ∧
    ((local_backup_repository true 3 (fun _ => false) repoR 6
        oldSnapshots).2.filter (snapshotMatches true repoR.name)).length
      = 3 :=
  ⟨(local_retention_amended repoR oldSnapshots 6 rfl (by decide) (by decide)
      (by decide) (by decide)).1,
   (local_retention_amended repoR oldSnapshots 6 rfl (by decide) (by decide)
      (by decide) (by decide)).2.1⟩

/-- C10 witness: two results collected in opposite orders. -/
theorem generate_summary_consistent_witness :
    sumBy (fun s => s.success) (generate_summary exResults).target_summary
      = (generate_summary exResults).successful ∧
    (generate_summary exResults).successful
      = (generate_summary exResultsRev).successful :=
  ⟨(generate_summary_consistent exResults exResultsRev
      (List.Perm.swap _ _ _)).1,
   (generate_summary_consistent exResults exResultsRev
      (List.Perm.swap _ _ _)).2.2.2.2.2.1⟩

end FuegoData
